import Mathlib

/-!
Verification development for the bluetti_monitor repository
(src/bluetti_monitor/monitor_service.py and src/bluetti_monitor/server_cli.py).

The definitions below are a shallow embedding of the message-routing and
schema-driven persistence pipeline of `MonitorService`:

* `MessageFieldType`, `MessageFieldConfig`, `DBTableConfig`, the
  `NORMAL_DEVICE_FIELDS` field-descriptor table and the `DATABASE_TABLES`
  table descriptors are translated verbatim from the module-level constants
  (`home_assistant_extra`, a display-only metadata dictionary that none of the
  modelled logic reads, is omitted from `MessageFieldConfig`).
* `handleCommand` embeds `MonitorService._handle_command`, including the
  topic regular expression `COMMAND_TOPIC_RE`, the device lookup, the
  `has_field_setter` check, and the payload-decoding chain with its final
  `raise AssertionError` branch.
* `rowLoop` / `processTable` / `runTables` embed the per-table insert
  construction of `MonitorService._handle_message`, including the
  for/else ("iterate without break") idiom, the string-built query with
  its `[:-2]` slices, and per-table commit; database statement failures
  are modelled by an oracle `dbFail` telling which built statements the
  server rejects, and Python exceptions (`TypeError` from iterating a
  non-iterable `cell_voltages` value, `ValueError` from `int`,
  `UnicodeDecodeError` from `bytes.decode('ascii')`, `AssertionError`)
  are modelled as `Except` errors that abort the handler, since the source
  installs no exception handler around this code.

Modelling conventions: Python `str` and MQTT payload bytes are both modelled
as Lean `String` (payload bytes are code points; `decode('ascii')` succeeds
exactly when all are below 128).  Regex character classes `\w` and `\d` are
modelled by their ASCII subsets `[A-Za-z0-9_]` and `[0-9]`.  The class
`BluettiDevice` and the `EventBus` live in modules that are not part of the
repository snapshot; the parts of their contracts that the modelled code
relies on are taken from the specification and are marked
`Modelled from the spec:` below.
-/

/-- Field kinds, translated from the `MessageFieldType` enum. -/
inductive MessageFieldType where
  | NUMERIC
  | BOOL
  | ENUM
  | BUTTON
deriving DecidableEq

/-- Field descriptor, translated from the `MessageFieldConfig` dataclass.
The `home_assistant_extra` display-metadata dictionary is omitted: no code
modelled here reads it. -/
structure MessageFieldConfig where
  type : MessageFieldType
  setter : Bool
  advanced : Bool
  id_override : Option String := none
deriving DecidableEq

/-- Table descriptor, translated from the `DBTableConfig` dataclass. -/
structure DBTableConfig where
  table_name : String
  fields : List String
deriving DecidableEq

/-- The `general_data` entry of `DATABASE_TABLES`. -/
def tcGeneral : DBTableConfig :=
  { table_name := "general_data",
    fields := ["device_type", "serial_number", "arm_version", "dsp_version",
               "dc_input_power", "ac_input_power", "ac_output_power",
               "dc_output_power", "power_generation", "total_battery_percent",
               "ac_output_on", "dc_output_on"] }

/-- The `internal_data` entry of `DATABASE_TABLES`. -/
def tcInternal : DBTableConfig :=
  { table_name := "internal_data",
    fields := ["ac_output_mode", "internal_ac_voltage", "internal_current_one",
               "internal_power_one", "internal_ac_frequency", "internal_current_two",
               "internal_power_two", "ac_input_voltage", "internal_current_three",
               "internal_power_three", "ac_input_frequency",
               "internal_dc_input_voltage", "internal_dc_input_power",
               "internal_dc_input_current"] }

/-- The `setting_data` entry of `DATABASE_TABLES` (note the source maps the
dictionary key `setting_data` to the table named `settings_data`). -/
def tcSetting : DBTableConfig :=
  { table_name := "settings_data",
    fields := ["ups_mode", "split_phase_on", "split_phase_machine_mode", "pack_num",
               "ac_output_on", "dc_output_on", "grid_charge_on", "time_control_on",
               "battery_range_start", "battery_range_end", "bluetooth_connected",
               "auto_sleep_mode"] }

/-- The `battery_pack_data` entry of `DATABASE_TABLES`. -/
def tcBattery : DBTableConfig :=
  { table_name := "battery_pack_data",
    fields := ["pack_num_max", "total_battery_voltage", "pack_num", "pack_voltage",
               "pack_battery_percent", "cell_voltages"] }

/-- The `DATABASE_TABLES` dictionary, in insertion (= iteration) order. -/
def databaseTables : List (String × DBTableConfig) :=
  [ ("general_data", tcGeneral),
    ("internal_data", tcInternal),
    ("setting_data", tcSetting),
    ("battery_pack_data", tcBattery) ]

/-- The `NORMAL_DEVICE_FIELDS` dictionary: field name, kind, settability and
advanced flag of every described field, in insertion order. -/
def normalDeviceFields : List (String × MessageFieldConfig) :=
  [ ("dc_input_power", { type := .NUMERIC, setter := false, advanced := false }),
    ("ac_input_power", { type := .NUMERIC, setter := false, advanced := false }),
    ("ac_output_power", { type := .NUMERIC, setter := false, advanced := false }),
    ("dc_output_power", { type := .NUMERIC, setter := false, advanced := false }),
    ("power_generation", { type := .NUMERIC, setter := false, advanced := false }),
    ("total_battery_percent", { type := .NUMERIC, setter := false, advanced := false }),
    ("ac_output_on", { type := .BOOL, setter := true, advanced := false }),
    ("dc_output_on", { type := .BOOL, setter := true, advanced := false }),
    ("ac_output_mode", { type := .ENUM, setter := false, advanced := true }),
    ("internal_ac_voltage", { type := .NUMERIC, setter := false, advanced := true }),
    ("internal_current_one", { type := .NUMERIC, setter := false, advanced := true }),
    ("internal_power_one", { type := .NUMERIC, setter := false, advanced := true }),
    ("internal_ac_frequency", { type := .NUMERIC, setter := false, advanced := true }),
    ("internal_current_two", { type := .NUMERIC, setter := false, advanced := true }),
    ("internal_power_two", { type := .NUMERIC, setter := false, advanced := true }),
    ("ac_input_voltage", { type := .NUMERIC, setter := false, advanced := true }),
    ("internal_current_three", { type := .NUMERIC, setter := false, advanced := true }),
    ("internal_power_three", { type := .NUMERIC, setter := false, advanced := true }),
    ("ac_input_frequency", { type := .NUMERIC, setter := false, advanced := true }),
    ("total_battery_voltage", { type := .NUMERIC, setter := false, advanced := true }),
    ("total_battery_current", { type := .NUMERIC, setter := false, advanced := true }),
    ("ups_mode", { type := .ENUM, setter := true, advanced := false }),
    ("split_phase_on", { type := .BOOL, setter := false, advanced := false }),
    ("split_phase_machine_mode", { type := .ENUM, setter := false, advanced := false }),
    ("grid_charge_on", { type := .BOOL, setter := true, advanced := false }),
    ("time_control_on", { type := .BOOL, setter := true, advanced := false }),
    ("battery_range_start", { type := .NUMERIC, setter := true, advanced := false }),
    ("battery_range_end", { type := .NUMERIC, setter := true, advanced := false }),
    ("led_mode", { type := .ENUM, setter := true, advanced := false }),
    ("power_off", { type := .BUTTON, setter := true, advanced := false }),
    ("auto_sleep_mode", { type := .ENUM, setter := true, advanced := false }),
    ("eco_on", { type := .BOOL, setter := true, advanced := false }),
    ("eco_shutdown", { type := .ENUM, setter := true, advanced := false }),
    ("charging_mode", { type := .ENUM, setter := true, advanced := false }),
    ("power_lifting_on", { type := .BOOL, setter := true, advanced := false }) ]

/-- Dictionary lookup `NORMAL_DEVICE_FIELDS[name]` (keys are distinct, so the
first match is the only match). -/
def lookupNormalField (name : String) : Option MessageFieldConfig :=
  (normalDeviceFields.find? (fun e => e.1 == name)).map (fun e => e.2)

/-- Modelled from the spec: `BluettiDevice` lives in `bluetti_monitor.core`,
which is not part of the repository snapshot.  Per the spec's data model, a
device's identity is its (type, serial) pair and it knows which of its fields
are remotely settable (`hasFieldSetter`). -/
structure Device where
  type : String
  sn : String
  settableFields : List String
deriving DecidableEq

/-- Modelled from the spec: the device capability test
`hasFieldSetter(fieldName) -> bool` (source method `has_field_setter`). -/
def hasFieldSetter (d : Device) (field : String) : Bool :=
  d.settableFields.contains field

/-- Typed value carried by a setter command. -/
inductive CmdValue where
  | enum (s : String)
  | bool (b : Bool)
  | num (n : Int)
deriving DecidableEq

/-- Modelled from the spec: the opaque `DeviceCommand` built by
`buildSetterCommand(fieldName, value)` (source method
`build_setter_command`). -/
inductive DeviceCommand where
  | setter (field : String) (value : CmdValue)
deriving DecidableEq

/-- Python exceptions that the modelled code can raise (the source installs
no handler for them, so they propagate out of the handler). -/
inductive PyExc where
  | typeError
  | valueError
  | unicodeDecodeError
  | assertionError
deriving DecidableEq

/-- Everything `_handle_command` can do with a request: publish a
`CommandMessage(device, cmd)` on the Event Bus, log-and-drop it (the three
`return` branches and the unhandled-field branch), or raise an exception. -/
inductive CommandOutcome where
  | published (device : Device) (cmd : DeviceCommand)
  | droppedMalformedTopic
  | droppedUnknownDevice
  | droppedUnsupportedField
  | droppedUnhandledField
  | raised (e : PyExc)
deriving DecidableEq

/-- ASCII word character: the `\w` class of `COMMAND_TOPIC_RE`, restricted to
ASCII. -/
def isWordChar (c : Char) : Bool :=
  c.isAlpha || c.isDigit || c = '_'

/-- Character class `[a-z_]` of `COMMAND_TOPIC_RE`. -/
def isFieldChar (c : Char) : Bool :=
  (decide ('a' ≤ c) && decide (c ≤ 'z')) || c = '_'

/-- Strip a literal character sequence from the front of a list, returning
the remainder when the literal is present. -/
def stripLit : List Char → List Char → Option (List Char)
  | [], cs => some cs
  | _ :: _, [] => none
  | p :: ps, c :: cs => if c = p then stripLit ps cs else none

/-- Core matcher of `COMMAND_TOPIC_RE = r'^bluetti/command/(\w+)-(\d+)/([a-z_]+)$'`
against a whole character list, returning the three capture groups.  Because
`-`, `/` and the end of the pattern are outside the classes `\w`, `\d` and
`[a-z_]`, greedy matching with maximal munch is equivalent to the regex. -/
def topicCapture (cs : List Char) : Option (String × String × String) :=
  match stripLit "bluetti/command/".data cs with
  | none => none
  | some rest =>
    let t := rest.takeWhile isWordChar
    if t.isEmpty then none else
    match rest.dropWhile isWordChar with
    | '-' :: r2 =>
      let s := r2.takeWhile Char.isDigit
      if s.isEmpty then none else
      match r2.dropWhile Char.isDigit with
      | '/' :: r4 =>
        if r4.isEmpty then none
        else if r4.all isFieldChar then some (⟨t⟩, ⟨s⟩, ⟨r4⟩) else none
      | _ => none
    | _ => none

/-- `COMMAND_TOPIC_RE.match(topic)`: Python's `$` also matches immediately
before a single newline at the end of the string, so a topic carrying one
trailing newline matches as well. -/
def topicMatch (topic : String) : Option (String × String × String) :=
  match topicCapture topic.data with
  | some r => some r
  | none =>
    match topic.data.getLast? with
    | some c => if c = '\n' then topicCapture topic.data.dropLast else none
    | none => none

/-- Python whitespace characters stripped by `int()`. -/
def pyIsSpace (c : Char) : Bool :=
  c = ' ' || c = '\t' || c = '\n' || c = '\r' || c = Char.ofNat 11 || c = Char.ofNat 12

/-- Digit accumulator of Python `int()`: after at least one digit, single
underscores are allowed between digits. -/
def pyDigitsGo (acc : Nat) : List Char → Option Nat
  | [] => some acc
  | '_' :: c :: cs =>
    if c.isDigit then pyDigitsGo (acc * 10 + (c.toNat - 48)) cs else none
  | ['_'] => none
  | c :: cs =>
    if c.isDigit then pyDigitsGo (acc * 10 + (c.toNat - 48)) cs else none

/-- Nonempty digit run (with Python's underscore rules) to its value. -/
def pyIntDigits : List Char → Option Nat
  | [] => none
  | c :: cs => if c.isDigit then pyDigitsGo (c.toNat - 48) cs else none

/-- Python `int(s)` on a decimal string: strip whitespace, optional sign,
then a digit run; any other shape raises `ValueError` (modelled as `none`). -/
def pyInt (s : String) : Option Int :=
  match ((s.data.dropWhile pyIsSpace).reverse.dropWhile pyIsSpace).reverse with
  | '+' :: rest => (pyIntDigits rest).map (fun n => (n : Int))
  | '-' :: rest => (pyIntDigits rest).map (fun n => -(n : Int))
  | rest => (pyIntDigits rest).map (fun n => (n : Int))

/-- `payload.decode('ascii')`: succeeds exactly when every code point is
below 128, otherwise raises `UnicodeDecodeError` (modelled as `none`). -/
def pyDecodeAscii (s : String) : Option String :=
  if s.data.all (fun c => decide (c.toNat < 128)) then some s else none

/-- The payload-decoding chain of `_handle_command` (source lines 571-581):
enum payloads pass through as ASCII text, boolean/button payloads compare
against the exact bytes `ON`, numeric payloads go through `int()`, and any
other field kind hits the `raise AssertionError` branch. -/
def decodeSetterCommand (field : String) (fc : MessageFieldConfig) (payload : String) :
    Except PyExc DeviceCommand :=
  if fc.type == .ENUM then
    match pyDecodeAscii payload with
    | some v => .ok (.setter field (.enum v))
    | none => .error .unicodeDecodeError
  else if fc.type == .BOOL || fc.type == .BUTTON then
    .ok (.setter field (.bool (payload == "ON")))
  else if fc.type == .NUMERIC then
    match pyDecodeAscii payload with
    | none => .error .unicodeDecodeError
    | some v =>
      match pyInt v with
      | some n => .ok (.setter field (.num n))
      | none => .error .valueError
  else .error .assertionError

/-- `MonitorService._handle_command`: parse the topic, find the device by
(type, serial), check settability, check membership in
`NORMAL_DEVICE_FIELDS`, decode the payload per field kind, and publish
`CommandMessage(device, cmd)` on the bus. -/
def handleCommand (devices : List Device) (topic : String) (payload : String) :
    CommandOutcome :=
  match topicMatch topic with
  | none => .droppedMalformedTopic
  | some (t, s, f) =>
    match devices.find? (fun d => d.type == t && d.sn == s) with
    | none => .droppedUnknownDevice
    | some device =>
      if !hasFieldSetter device f then .droppedUnsupportedField
      else
        match lookupNormalField f with
        | none => .droppedUnhandledField
        | some fc =>
          match decodeSetterCommand f fc payload with
          | .ok cmd => .published device cmd
          | .error e => .raised e

/-- Values a decoded telemetry field can carry (`msg.parsed` maps field names
to numbers, booleans, enum strings, or arrays such as the per-cell voltage
list). -/
inductive PyValue where
  | int (n : Int)
  | bool (b : Bool)
  | str (s : String)
  | list (vs : List PyValue)

/-- Join a list of strings with a separator: Python `sep.join(l)`. -/
def sepJoin (sep : String) : List String → String
  | [] => ""
  | [x] => x
  | x :: y :: xs => x ++ sep ++ sepJoin sep (y :: xs)

mutual

/-- Python `repr` on a modelled value.  `repr` of a string wraps it in single
quotes (our telemetry strings contain no quotes or escapes, so no escaping is
modelled); `repr` of a list is the bracketed, comma-separated `repr` of its
elements; on numbers and booleans `repr` agrees with `str`. -/
def pyRepr : PyValue → String
  | .int n => toString n
  | .bool b => if b then "True" else "False"
  | .str s => String.mk (Char.ofNat 39 :: s.data) ++ String.mk [Char.ofNat 39]
  | .list vs => "[" ++ sepJoin ", " (pyReprList vs) ++ "]"

/-- `repr` applied to each element of a list of values. -/
def pyReprList : List PyValue → List String
  | [] => []
  | v :: vs => pyRepr v :: pyReprList vs

end

/-- Python `str` on a modelled value: identity on strings, `True`/`False` on
booleans, decimal on integers, and the bracketed `repr`-element form on
lists. -/
def pyStr : PyValue → String
  | .str s => s
  | v => pyRepr v

/-- Python iteration `for v in value`: lists yield their elements, strings
yield their characters as one-character strings, and every other value
raises `TypeError` (modelled as `none`). -/
def pyIterElems : PyValue → Option (List PyValue)
  | .list vs => some vs
  | .str s => some (s.data.map (fun c => PyValue.str (String.mk [c])))
  | _ => none

/-- Whether Python iteration over the value succeeds. -/
def pyIterable (v : PyValue) : Bool :=
  match v with
  | .list _ => true
  | .str _ => true
  | _ => false

/-- A parameter passed to `cursor.execute`: the source appends `str(value)`
unless the value is a `bool`, which is passed natively
(`str(value) if type(value) != type(True) else value`). -/
inductive PyParam where
  | str (s : String)
  | bool (b : Bool)
deriving DecidableEq

/-- Body of the inner loop of `_handle_message` for one `(name, value)` pair
that survived the table-membership test: the `cell_voltages` special case
(`value = [str(v) for v in value]`, a `TypeError` if the value is not
iterable) followed by the append of `str(value)` or the native boolean. -/
def loopBody (name : String) (value : PyValue) : Except PyExc PyParam :=
  let transformed : Except PyExc PyValue :=
    if name == "cell_voltages" then
      match pyIterElems value with
      | some vs => .ok (.list (vs.map (fun v => PyValue.str (pyStr v))))
      | none => .error .typeError
    else .ok value
  match transformed with
  | .error e => .error e
  | .ok (.bool b) => .ok (.bool b)
  | .ok v => .ok (.str (pyStr v))

/-- Inner loop of `_handle_message` over `msg.parsed.items()` for one table:
`break` as soon as a field name is not in the table's field list (so the
for/else `else` block is skipped and the table gets no insert, modelled as
`ok none`); otherwise accumulate `valueOrder` (the `name + ", "`
concatenation) and the parameter list. -/
def rowLoop (fields : List String) : List (String × PyValue) →
    Except PyExc (Option (String × List PyParam))
  | [] => .ok (some ("", []))
  | (name, value) :: rest =>
    if name ∈ fields then
      match loopBody name value with
      | .error e => .error e
      | .ok p =>
        match rowLoop fields rest with
        | .error e => .error e
        | .ok none => .ok none
        | .ok (some (vo, ps)) => .ok (some (name ++ ", " ++ vo, p :: ps))
    else .ok none

/-- Concatenate a list of strings: Python string `+=` accumulation and
string repetition both reduce to this. -/
def pyConcat : List String → String
  | [] => ""
  | s :: l => s ++ pyConcat l

/-- Python `s * n` on strings. -/
def pyRepeat (s : String) (n : Nat) : String :=
  pyConcat (List.replicate n s)

/-- Python slice `s[:-2]`: drop the final two characters (empty result when
the string is shorter than two characters). -/
def pyDropLast2 (s : String) : String :=
  String.mk s.data.dropLast.dropLast

/-- One parameterized insert statement handed to `cursor.execute`. -/
structure InsertStmt where
  table : String
  query : String
  values : List PyParam
deriving DecidableEq

/-- The query f-string of `_handle_message`, built exactly as in the source:
`INSERT INTO {table_name} (device, {valueOrder[:-2]}) VALUES ({("%s, " * len(values))[:-2]})`. -/
def buildQuery (tableName : String) (valueOrder : String) (nvalues : Nat) : String :=
  "INSERT INTO " ++ tableName ++ " (device, " ++ pyDropLast2 valueOrder ++
    ") VALUES (" ++ pyDropLast2 (pyRepeat "%s, " nvalues) ++ ")"

/-- Process one table of `DATABASE_TABLES` for one event: run the inner loop;
when it completes without `break`, build the insert whose parameter list is
the device identity followed by the accumulated values. -/
def processTable (deviceName : String) (tc : DBTableConfig)
    (parsed : List (String × PyValue)) : Except PyExc (Option InsertStmt) :=
  match rowLoop tc.fields parsed with
  | .error e => .error e
  | .ok none => .ok none
  | .ok (some (vo, ps)) =>
    let values := PyParam.str deviceName :: ps
    .ok (some { table := tc.table_name,
                query := buildQuery tc.table_name vo values.length,
                values := values })

/-- Errors that can escape `_handle_message`: a Python exception from the
row-building code, or a database error raised by `cursor.execute`. -/
inductive RunError where
  | py (e : PyExc)
  | db (cause : String)
deriving DecidableEq

/-- Outer loop of `_handle_message` over `DATABASE_TABLES.items()`.  `dbFail`
is the database oracle: `some cause` means `cursor.execute` raises
`mariadb.Error(cause)` on that statement.  Each successful insert is
committed immediately, so inserts executed before a failure stay committed;
the first exception (Python or database) aborts the remaining tables, since
the source wraps nothing in try/except.  Returns the committed inserts in
execution order and the escaped error, if any. -/
def runTables (dbFail : InsertStmt → Option String) (deviceName : String)
    (parsed : List (String × PyValue)) :
    List (String × DBTableConfig) → List InsertStmt × Option RunError
  | [] => ([], none)
  | (_, tc) :: rest =>
    match processTable deviceName tc parsed with
    | .error e => ([], some (.py e))
    | .ok none => runTables dbFail deviceName parsed rest
    | .ok (some i) =>
      match dbFail i with
      | some cause => ([], some (.db cause))
      | none =>
        let r := runTables dbFail deviceName parsed rest
        (i :: r.1, r.2)

/-- A telemetry event as delivered to `_handle_message`: the originating
device and the decoded field map in iteration order. -/
structure ParserMessage where
  device : Device
  parsed : List (String × PyValue)

/-- `MonitorService._handle_message` on one event: the device-identity
column value is `f'{msg.device.type}-{msg.device.sn}'`, then every table of
`DATABASE_TABLES` is processed in order. -/
def handleMessageRun (dbFail : InsertStmt → Option String) (msg : ParserMessage) :
    List InsertStmt × Option RunError :=
  runTables dbFail (msg.device.type ++ "-" ++ msg.device.sn) msg.parsed databaseTables

/-- The database oracle of an error-free server: no statement fails. -/
def noFail : InsertStmt → Option String := fun _ => none

/-- The inserts a fault-free persistence run executes into the named table. -/
def insertsInto (msg : ParserMessage) (tableName : String) : List InsertStmt :=
  (handleMessageRun noFail msg).1.filter (fun i => i.table == tableName)

/-- Event well-formedness used as a hypothesis below: whenever the event
carries a `cell_voltages` field, its value is iterable (the spec's data
model makes it an array of numerics), so the comprehension
`[str(v) for v in value]` cannot raise `TypeError`. -/
def parsedWF (parsed : List (String × PyValue)) : Prop :=
  ∀ q ∈ parsed, q.1 = "cell_voltages" → pyIterable q.2 = true

instance (parsed : List (String × PyValue)) : Decidable (parsedWF parsed) := by
  unfold parsedWF
  infer_instance

/-- Modelled from the spec: `registerIfAbsent` of the Device Registry
(§4.2).  The source keeps `self.devices : List[BluettiDevice]` and runs
`if msg.device not in self.devices: self.devices.append(msg.device)`;
`BluettiDevice` itself is not under src/, and the spec fixes membership
equality to be by the (type, serial) pair.  Returns the stored device, the
`wasNew` flag, and the updated registry. -/
def registerIfAbsent (devices : List Device) (d : Device) :
    Device × Bool × List Device :=
  match devices.find? (fun e => e.type == d.type && e.sn == d.sn) with
  | some stored => (stored, false, devices)
  | none => (d, true, devices ++ [d])

/-- Occurrences of a character pattern inside a character list (counting
every start position; the pattern `%s` cannot overlap itself). -/
def countSub (pat : List Char) : List Char → Nat
  | [] => 0
  | c :: cs => (if pat.isPrefixOf (c :: cs) then 1 else 0) + countSub pat cs

/-- The topic grammar `bluetti/command/<type>-<serial>/<field>` as the spec
states it: a decomposition into a nonempty word-character type, a nonempty
digit serial and a nonempty `[a-z_]` field name. -/
def isTopicDecomp (topic t s f : String) : Prop :=
  topic = "bluetti/command/" ++ t ++ "-" ++ s ++ "/" ++ f ∧
    t ≠ "" ∧ t.data.all isWordChar = true ∧
    s ≠ "" ∧ s.data.all Char.isDigit = true ∧
    f ≠ "" ∧ f.data.all isFieldChar = true

/-- The same grammar followed by one trailing newline, which Python's `$`
anchor also accepts. -/
def isTopicDecompNl (topic t s f : String) : Prop :=
  topic = "bluetti/command/" ++ t ++ "-" ++ s ++ "/" ++ f ++ "\n" ∧
    t ≠ "" ∧ t.data.all isWordChar = true ∧
    s ≠ "" ∧ s.data.all Char.isDigit = true ∧
    f ≠ "" ∧ f.data.all isFieldChar = true

/-- The committed insert, if any, that one processed table contributes. -/
def exOpt : Except PyExc (Option InsertStmt) → Option InsertStmt
  | .ok (some i) => some i
  | _ => none

/-- Character shape of the placeholder block `("%s, " * n)[:-2]`. -/
def phBlock : Nat → List Char
  | 0 => []
  | 1 => ['%', 's']
  | n + 2 => ['%', 's', ',', ' '] ++ phBlock (n + 1)

/-- Example device `AC200-100` used as a concrete input: an AC200 with
serial 100 that advertises setters for an output switch, a numeric range
field, a button and an enum. -/
def devEx : Device :=
  { type := "AC200", sn := "100",
    settableFields := ["ac_output_on", "battery_range_start", "power_off", "ups_mode"] }

/-- Concrete event whose field map is a strict superset of the
`battery_pack_data` field list (all six battery fields plus
`dc_input_power`). -/
def msgSuperset : ParserMessage :=
  { device := devEx,
    parsed := [("dc_input_power", .int 1), ("pack_num_max", .int 1),
               ("total_battery_voltage", .int 2), ("pack_num", .int 1),
               ("pack_voltage", .int 3), ("pack_battery_percent", .int 50),
               ("cell_voltages", .list [.int 3, .int 4])] }

/-- Concrete event carrying only `dc_input_power`, hence missing eleven of
the twelve required `general_data` fields. -/
def msgPartial : ParserMessage :=
  { device := devEx, parsed := [("dc_input_power", .int 100)] }

/-- Concrete event carrying only `ac_output_on`, a field shared by the
`general_data` and `settings_data` tables. -/
def msgShared : ParserMessage :=
  { device := devEx, parsed := [("ac_output_on", .bool true)] }

/-- Database oracle that rejects every statement aimed at `general_data`
and accepts everything else. -/
def dbFailGeneral : InsertStmt → Option String :=
  fun i => if i.table == "general_data" then some "simulated mariadb error" else none

/-- The loop body cannot raise when the event is well-formed: only a
non-iterable `cell_voltages` value can make it throw `TypeError`. -/
theorem loopBody_ok (name : String) (value : PyValue)
    (h : name = "cell_voltages" → pyIterable value = true) :
    ∃ p, loopBody name value = .ok p := by
  rcases h2 : loopBody name value with e | p
  · exfalso
    by_cases hn : name = "cell_voltages"
    · have hv := h hn
      subst hn
      cases value <;> simp_all [loopBody, pyIterElems, pyIterable]
    · have hb : (name == "cell_voltages") = false := by
        simp [hn]
      rw [loopBody, hb] at h2
      cases value <;> simp at h2
  · exact ⟨p, rfl⟩

/-- When every event field belongs to the table, the inner loop runs to
completion: `valueOrder` is the concatenation of `name + ", "` over the
event's fields in map order, and one parameter is accumulated per field. -/
theorem rowLoop_all_mem (fields : List String) (p : List (String × PyValue))
    (hwf : parsedWF p) (hsub : ∀ q ∈ p, q.1 ∈ fields) :
    ∃ ps, rowLoop fields p =
        .ok (some (pyConcat (p.map (fun q => q.1 ++ ", ")), ps)) ∧
      ps.length = p.length := by
  induction p with
  | nil => exact ⟨[], rfl, rfl⟩
  | cons q rest ih =>
    obtain ⟨name, value⟩ := q
    have hmem : name ∈ fields := hsub ⟨name, value⟩ (List.mem_cons_self _ _)
    obtain ⟨pb, hbody⟩ :=
      loopBody_ok name value (fun h => hwf ⟨name, value⟩ (List.mem_cons_self _ _) h)
    obtain ⟨ps, hrow, hlen⟩ :=
      ih (fun x hx h => hwf x (List.mem_cons_of_mem _ hx) h)
        (fun x hx => hsub x (List.mem_cons_of_mem _ hx))
    refine ⟨pb :: ps, ?_, by simp [hlen]⟩
    simp [rowLoop, hmem, hbody, hrow, pyConcat]

/-- The for/else `break`: as soon as some event field is outside the table's
field list, the loop is abandoned and the table receives no insert. -/
theorem rowLoop_break (fields : List String) (p : List (String × PyValue))
    (hwf : parsedWF p) (hbad : ∃ q ∈ p, q.1 ∉ fields) :
    rowLoop fields p = .ok none := by
  induction p with
  | nil => obtain ⟨q, hq, _⟩ := hbad; cases hq
  | cons q rest ih =>
    obtain ⟨name, value⟩ := q
    by_cases hmem : name ∈ fields
    · obtain ⟨pb, hbody⟩ :=
        loopBody_ok name value (fun h => hwf ⟨name, value⟩ (List.mem_cons_self _ _) h)
      have hbad' : ∃ x ∈ rest, x.1 ∉ fields := by
        obtain ⟨x, hx, hxf⟩ := hbad
        rcases List.mem_cons.mp hx with h | h
        · exact absurd (h ▸ hmem) hxf
        · exact ⟨x, h, hxf⟩
      have hrest := ih (fun x hx h => hwf x (List.mem_cons_of_mem _ hx) h) hbad'
      simp [rowLoop, hmem, hbody, hrest]
    · simp [rowLoop, hmem]

/-- On a well-formed event the inner loop never raises. -/
theorem rowLoop_ok (fields : List String) (p : List (String × PyValue))
    (hwf : parsedWF p) : ∃ r, rowLoop fields p = .ok r := by
  induction p with
  | nil => exact ⟨_, rfl⟩
  | cons q rest ih =>
    obtain ⟨name, value⟩ := q
    by_cases hmem : name ∈ fields
    · obtain ⟨pb, hbody⟩ :=
        loopBody_ok name value (fun h => hwf ⟨name, value⟩ (List.mem_cons_self _ _) h)
      obtain ⟨r, hr⟩ := ih (fun x hx h => hwf x (List.mem_cons_of_mem _ hx) h)
      cases r with
      | none => exact ⟨none, by simp [rowLoop, hmem, hbody, hr]⟩
      | some x =>
        obtain ⟨vo, ps⟩ := x
        refine ⟨some (name ++ ", " ++ vo, pb :: ps), ?_⟩
        simp [rowLoop, hmem, hbody, hr]
    · exact ⟨none, by simp [rowLoop, hmem]⟩

/-- A completed inner loop accumulated exactly the `name + ", "` pieces of
some list of field names drawn from the table, one parameter per name. -/
theorem rowLoop_some_spec (fields : List String) :
    ∀ (p : List (String × PyValue)) (vo : String) (ps : List PyParam),
      rowLoop fields p = .ok (some (vo, ps)) →
      ∃ names : List String, vo = pyConcat (names.map (fun x => x ++ ", ")) ∧
        names.length = ps.length ∧ ∀ x ∈ names, x ∈ fields := by
  intro p
  induction p with
  | nil =>
    intro vo ps h
    simp [rowLoop] at h
    obtain ⟨h1, h2⟩ := h
    subst h1
    subst h2
    exact ⟨[], by simp [pyConcat]⟩
  | cons q rest ih =>
    obtain ⟨name, value⟩ := q
    intro vo ps h
    by_cases hmem : name ∈ fields
    · simp only [rowLoop, if_pos hmem] at h
      rcases hlb : loopBody name value with e | pb <;> rw [hlb] at h
      · cases h
      · rcases hrl : rowLoop fields rest with e | o <;> rw [hrl] at h
        · cases h
        · cases o with
          | none => cases h
          | some x =>
            obtain ⟨vo', ps'⟩ := x
            simp only [Except.ok.injEq, Option.some.injEq, Prod.mk.injEq] at h
            obtain ⟨hvo, hps⟩ := h
            obtain ⟨names, h1, h2, h3⟩ := ih vo' ps' hrl
            refine ⟨name :: names, ?_, ?_, ?_⟩
            · simp [pyConcat, ← hvo, h1]
            · simp [← hps, h2]
            · intro x hx
              rcases List.mem_cons.mp hx with h | h
              · exact h ▸ hmem
              · exact h3 x h
    · simp [rowLoop, hmem] at h

/-- On a well-formed event, processing a table never raises. -/
theorem processTable_ok (d : String) (tc : DBTableConfig)
    (p : List (String × PyValue)) (hwf : parsedWF p) :
    ∃ r, processTable d tc p = .ok r := by
  obtain ⟨r, hr⟩ := rowLoop_ok tc.fields p hwf
  cases r with
  | none => exact ⟨none, by simp [processTable, hr]⟩
  | some x =>
    obtain ⟨vo, ps⟩ := x
    refine ⟨some { table := tc.table_name,
                   query := buildQuery tc.table_name vo (ps.length + 1),
                   values := PyParam.str d :: ps }, ?_⟩
    simp [processTable, hr]

/-- Every insert a table contributes is aimed at that table. -/
theorem processTable_table (d : String) (tc : DBTableConfig)
    (p : List (String × PyValue)) (i : InsertStmt)
    (h : processTable d tc p = .ok (some i)) : i.table = tc.table_name := by
  unfold processTable at h
  rcases hrl : rowLoop tc.fields p with e | o <;> rw [hrl] at h
  · cases h
  · cases o with
    | none => cases h
    | some x =>
      obtain ⟨vo, ps⟩ := x
      simp only [Except.ok.injEq, Option.some.injEq] at h
      rw [← h]

/-- Computation rule: a skipped table contributes no insert. -/
theorem exOpt_ok_none : exOpt (.ok none) = none := rfl

/-- Computation rule: a built insert is the table's contribution. -/
theorem exOpt_ok_some (i : InsertStmt) : exOpt (.ok (some i)) = some i := rfl

/-- On a fault-free database and a well-formed event, the inserts executed
into a given table are exactly those contributed by the entries of
`DATABASE_TABLES` bearing that table name. -/
theorem runTables_filter (dN : String) (p : List (String × PyValue)) (N : String)
    (hwf : parsedWF p) :
    ∀ ts : List (String × DBTableConfig),
      ((runTables noFail dN p ts).1.filter (fun i => i.table == N)) =
        ts.filterMap
          (fun e => if e.2.table_name = N then exOpt (processTable dN e.2 p) else none) := by
  intro ts
  induction ts with
  | nil => simp [runTables]
  | cons e ts ih =>
    obtain ⟨nk, tc⟩ := e
    obtain ⟨r, hr⟩ := processTable_ok dN tc p hwf
    cases r with
    | none =>
      simp only [runTables, hr, List.filterMap_cons, exOpt_ok_none, ite_self]
      exact ih
    | some i =>
      have htab : i.table = tc.table_name := processTable_table dN tc p i hr
      by_cases hN : tc.table_name = N
      · have hcond : (i.table == N) = true := by simp [htab, hN]
        simp only [runTables, hr, noFail, List.filterMap_cons, exOpt_ok_some, if_pos hN,
          List.filter_cons, hcond, if_true]
        rw [ih]
      · have hcond : (i.table == N) = false := by simp [htab, hN]
        simp only [runTables, hr, noFail, List.filterMap_cons, exOpt_ok_some, if_neg hN,
          List.filter_cons, hcond]
        simpa using ih

/-- Running a concatenation of table lists: when the first part raises no
error, its committed inserts are followed by those of the second part, and
the second part's error (if any) is the overall error. -/
theorem runTables_append (dbFail : InsertStmt → Option String) (dN : String)
    (p : List (String × PyValue)) :
    ∀ ts1 ts2 : List (String × DBTableConfig),
      (runTables dbFail dN p ts1).2 = none →
      runTables dbFail dN p (ts1 ++ ts2) =
        ((runTables dbFail dN p ts1).1 ++ (runTables dbFail dN p ts2).1,
         (runTables dbFail dN p ts2).2) := by
  intro ts1 ts2
  induction ts1 with
  | nil => intro _; simp [runTables]
  | cons e ts ih =>
    intro h
    obtain ⟨nk, tc⟩ := e
    rcases hpt : processTable dN tc p with er | o
    · simp only [runTables, hpt] at h
      exact Option.noConfusion h
    · cases o with
      | none =>
        simp only [runTables, hpt] at h
        simp only [List.cons_append, runTables, hpt]
        exact ih h
      | some i =>
        rcases hdb : dbFail i with _ | c
        · simp only [runTables, hpt, hdb] at h
          simp only [List.cons_append, runTables, hpt, hdb, List.append_eq]
          rw [ih h]
        · simp only [runTables, hpt, hdb] at h
          exact Option.noConfusion h

/-- C1 (counterexample): the claim as stated is false.  `msgSuperset`'s
field map is a strict superset of the `battery_pack_data` field list (every
battery field is present, plus `dc_input_power`), yet persisting it executes
zero inserts into `battery_pack_data` — in fact zero inserts anywhere:
the loop `break`s at the first event field outside the table's list, so a
superset event skips the table instead of inserting into it. -/
theorem c1_counterexample :
    (∀ fl ∈ tcBattery.fields, ∃ q ∈ msgSuperset.parsed, q.1 = fl) ∧
    ("battery_pack_data", tcBattery) ∈ databaseTables ∧
    insertsInto msgSuperset "battery_pack_data" = [] ∧
    (handleMessageRun noFail msgSuperset).1 = [] := by decide

/-- C1 (amended): for every well-formed telemetry event whose field-map keys
all lie inside a table's field list (the reverse inclusion of the claim's
superset condition), persisting the event executes exactly one insert into
that table; its parameter list is the device-identity value
`"<type>-<serial>"` followed by one parameter per event field, and its
column list (through `buildQuery`) is `device` followed by the *event's*
fields in event-map order — not the table's declared order. -/
theorem c1_amended (msg : ParserMessage) (nk : String) (tc : DBTableConfig)
    (hmem : (nk, tc) ∈ databaseTables)
    (hwf : parsedWF msg.parsed)
    (hsub : ∀ q ∈ msg.parsed, q.1 ∈ tc.fields) :
    ∃ ps : List PyParam,
      insertsInto msg tc.table_name =
        [{ table := tc.table_name,
           query := buildQuery tc.table_name
             (pyConcat (msg.parsed.map (fun q => q.1 ++ ", "))) (ps.length + 1),
           values := PyParam.str (msg.device.type ++ "-" ++ msg.device.sn) :: ps }] ∧
      ps.length = msg.parsed.length := by
  obtain ⟨ps, hrow, hlen⟩ := rowLoop_all_mem tc.fields msg.parsed hwf hsub
  have hpt : processTable (msg.device.type ++ "-" ++ msg.device.sn) tc msg.parsed =
      .ok (some { table := tc.table_name,
                  query := buildQuery tc.table_name
                    (pyConcat (msg.parsed.map (fun q => q.1 ++ ", "))) (ps.length + 1),
                  values := PyParam.str (msg.device.type ++ "-" ++ msg.device.sn) :: ps }) := by
    simp [processTable, hrow]
  refine ⟨ps, ?_, hlen⟩
  unfold insertsInto handleMessageRun
  rw [runTables_filter _ _ _ hwf databaseTables]
  simp only [databaseTables, List.mem_cons, List.not_mem_nil, or_false,
    Prod.mk.injEq] at hmem
  rcases hmem with ⟨h1, h2⟩ | ⟨h1, h2⟩ | ⟨h1, h2⟩ | ⟨h1, h2⟩ <;> subst h2 <;>
    simp only [databaseTables, List.filterMap_cons, List.filterMap_nil] <;>
    simp only [hpt, exOpt_ok_some] <;>
    simp [tcGeneral, tcInternal, tcSetting, tcBattery]

/-- C2 (counterexample): the claim as stated is false.  `msgPartial` misses
the required field `serial_number` of `general_data` (and ten others), yet
persisting it executes one insert into `general_data`: a partial row with
only the device column and `dc_input_power`.  The code never checks that the
table's fields are all present — only that the event's fields all belong to
the table. -/
theorem c2_counterexample :
    ("serial_number" ∈ tcGeneral.fields ∧
      ∀ q ∈ msgPartial.parsed, q.1 ≠ "serial_number") ∧
    ("general_data", tcGeneral) ∈ databaseTables ∧
    insertsInto msgPartial "general_data" =
      [{ table := "general_data",
         query := "INSERT INTO general_data (device, dc_input_power) VALUES (%s, %s)",
         values := [PyParam.str "AC200-100", PyParam.str "100"] }] := by decide

/-- C2 (amended): a table is skipped — zero inserts — exactly when the event
carries at least one field *outside* the table's field list; an event whose
fields are a strict subset of the table's fields is persisted as a partial
row rather than skipped (see the counterexample). -/
theorem c2_amended (msg : ParserMessage) (nk : String) (tc : DBTableConfig)
    (hmem : (nk, tc) ∈ databaseTables)
    (hwf : parsedWF msg.parsed)
    (hbad : ∃ q ∈ msg.parsed, q.1 ∉ tc.fields) :
    insertsInto msg tc.table_name = [] := by
  have hrow := rowLoop_break tc.fields msg.parsed hwf hbad
  have hpt : processTable (msg.device.type ++ "-" ++ msg.device.sn) tc msg.parsed =
      .ok none := by
    simp [processTable, hrow]
  unfold insertsInto handleMessageRun
  rw [runTables_filter _ _ _ hwf databaseTables]
  simp only [databaseTables, List.mem_cons, List.not_mem_nil, or_false,
    Prod.mk.injEq] at hmem
  rcases hmem with ⟨h1, h2⟩ | ⟨h1, h2⟩ | ⟨h1, h2⟩ | ⟨h1, h2⟩ <;> subst h2 <;>
    simp only [databaseTables, List.filterMap_cons, List.filterMap_nil] <;>
    simp only [hpt, exOpt_ok_none] <;>
    simp [tcGeneral, tcInternal, tcSetting, tcBattery]

/-- C3 (counterexample): the claim as stated is false.  With the database
rejecting the `general_data` statement, persisting `msgShared` commits no
insert and escapes with the bare underlying cause — no table name attached —
although on a fault-free database the same event would also insert into
`settings_data`: the failure aborts the remaining tables. -/
theorem c3_counterexample :
    handleMessageRun dbFailGeneral msgShared =
      ([], some (.db "simulated mariadb error")) ∧
    (handleMessageRun noFail msgShared).1.map (fun i => i.table) =
      ["general_data", "settings_data"] := by decide

/-- C3 (amended): when the statement built for one table fails, the inserts
committed for the earlier tables stay committed, the escaping error carries
only the underlying database cause (no table name), and processing of every
remaining table for that event is aborted. -/
theorem c3_amended (dbFail : InsertStmt → Option String) (dN : String)
    (p : List (String × PyValue)) (pre rest : List (String × DBTableConfig))
    (nk : String) (tc : DBTableConfig) (i : InsertStmt) (c : String)
    (hpre : (runTables dbFail dN p pre).2 = none)
    (hpt : processTable dN tc p = .ok (some i))
    (hdb : dbFail i = some c) :
    runTables dbFail dN p (pre ++ (nk, tc) :: rest) =
      ((runTables dbFail dN p pre).1, some (.db c)) := by
  rw [runTables_append dbFail dN p pre ((nk, tc) :: rest) hpre]
  simp only [runTables, hpt, hdb]
  simp

/-- C1 (witness): the amended theorem applied to the concrete event
`msgShared`, whose single field `ac_output_on` lies inside the
`general_data` field list. -/
theorem c1_witness :
    ∃ ps : List PyParam,
      insertsInto msgShared tcGeneral.table_name =
        [{ table := tcGeneral.table_name,
           query := buildQuery tcGeneral.table_name
             (pyConcat (msgShared.parsed.map (fun q => q.1 ++ ", "))) (ps.length + 1),
           values :=
             PyParam.str (msgShared.device.type ++ "-" ++ msgShared.device.sn) :: ps }] ∧
      ps.length = msgShared.parsed.length :=
  c1_amended msgShared "general_data" tcGeneral (by decide) (by decide) (by decide)

/-- C2 (witness): the amended theorem applied to `msgSuperset`, which
carries `dc_input_power`, a field outside the `battery_pack_data` list, so
that table receives zero inserts. -/
theorem c2_witness : insertsInto msgSuperset tcBattery.table_name = [] :=
  c2_amended msgSuperset "battery_pack_data" tcBattery (by decide) (by decide)
    (by decide)

/-- C3 (witness): the amended theorem applied at the head of
`DATABASE_TABLES` with the oracle that rejects `general_data` statements. -/
theorem c3_witness :
    runTables dbFailGeneral "AC200-100" [("ac_output_on", PyValue.bool true)]
        ([] ++ ("general_data", tcGeneral) ::
          [("internal_data", tcInternal), ("setting_data", tcSetting),
           ("battery_pack_data", tcBattery)]) =
      ((runTables dbFailGeneral "AC200-100" [("ac_output_on", PyValue.bool true)] []).1,
       some (.db "simulated mariadb error")) :=
  c3_amended dbFailGeneral "AC200-100" [("ac_output_on", PyValue.bool true)] []
    [("internal_data", tcInternal), ("setting_data", tcSetting),
     ("battery_pack_data", tcBattery)]
    "general_data" tcGeneral
    { table := "general_data",
      query := "INSERT INTO general_data (device, ac_output_on) VALUES (%s, %s)",
      values := [PyParam.str "AC200-100", PyParam.bool true] }
    "simulated mariadb error" rfl (by rfl) (by decide)

/-- C6 (confirmed): registration is idempotent under the (type, serial)
identity.  Starting from any registry that does not yet contain the
identity, registering a device reports `wasNew = true` and grows the
registry by one; registering again — even with a *different object* carrying
the same (type, serial) pair — reports `wasNew = false`, returns the same
stored device, and leaves the size at exactly one more than the start. -/
theorem c6_register_idempotent (regs : List Device) (d d2 : Device)
    (hfresh : ∀ e ∈ regs, ¬(e.type = d.type ∧ e.sn = d.sn))
    (ht : d2.type = d.type) (hs : d2.sn = d.sn) :
    (registerIfAbsent regs d).2.1 = true ∧
    (registerIfAbsent (registerIfAbsent regs d).2.2 d2).2.1 = false ∧
    (registerIfAbsent regs d).1 = d ∧
    (registerIfAbsent (registerIfAbsent regs d).2.2 d2).1 = d ∧
    (registerIfAbsent regs d).2.2.length = regs.length + 1 ∧
    (registerIfAbsent (registerIfAbsent regs d).2.2 d2).2.2.length = regs.length + 1 := by
  have hnone : regs.find? (fun e => e.type == d.type && e.sn == d.sn) = none := by
    rw [List.find?_eq_none]
    intro x hx
    simp only [Bool.and_eq_true, beq_iff_eq]
    exact fun h => hfresh x hx h
  have hnone2 : regs.find? (fun e => e.type == d2.type && e.sn == d2.sn) = none := by
    rw [List.find?_eq_none]
    intro x hx
    simp only [Bool.and_eq_true, beq_iff_eq, ht, hs]
    exact fun h => hfresh x hx h
  have h1 : registerIfAbsent regs d = (d, true, regs ++ [d]) := by
    rw [registerIfAbsent, hnone]
  have hfind2 : (regs ++ [d]).find? (fun e => e.type == d2.type && e.sn == d2.sn) =
      some d := by
    rw [List.find?_append, hnone2]
    simp [ht, hs]
  have h2 : registerIfAbsent (regs ++ [d]) d2 = (d, false, regs ++ [d]) := by
    rw [registerIfAbsent, hfind2]
  rw [h1]
  simp only [h2]
  simp

/-- C6 (witness): the theorem applied to the empty registry and two distinct
`Device` objects sharing the identity (AC200, 100). -/
theorem c6_witness :
    (registerIfAbsent [] devEx).2.1 = true ∧
    (registerIfAbsent (registerIfAbsent [] devEx).2.2
      { type := "AC200", sn := "100", settableFields := [] }).2.1 = false ∧
    (registerIfAbsent [] devEx).1 = devEx ∧
    (registerIfAbsent (registerIfAbsent [] devEx).2.2
      { type := "AC200", sn := "100", settableFields := [] }).1 = devEx ∧
    (registerIfAbsent [] devEx).2.2.length = 1 ∧
    (registerIfAbsent (registerIfAbsent [] devEx).2.2
      { type := "AC200", sn := "100", settableFields := [] }).2.2.length = 1 :=
  c6_register_idempotent [] devEx
    { type := "AC200", sn := "100", settableFields := [] }
    (by decide) (by decide) (by decide)

/-- C7 (confirmed): for a command on a field whose descriptor kind is
Boolean or Button, the payload decodes by comparison with the exact bytes
`ON` — `true` iff the payload equals `ON`, `false` for anything else — and
the decoded boolean is passed to the device's setter and published. -/
theorem c7_bool_button (devices : List Device) (topic payload : String)
    (t s f : String) (device : Device) (fc : MessageFieldConfig)
    (hm : topicMatch topic = some (t, s, f))
    (hd : devices.find? (fun d => d.type == t && d.sn == s) = some device)
    (hset : hasFieldSetter device f = true)
    (hf : lookupNormalField f = some fc)
    (hk : fc.type = .BOOL ∨ fc.type = .BUTTON) :
    handleCommand devices topic payload =
      .published device (.setter f (.bool (payload == "ON"))) := by
  have hdec : decodeSetterCommand f fc payload =
      .ok (.setter f (.bool (payload == "ON"))) := by
    rcases hk with hk | hk <;> simp [decodeSetterCommand, hk]
  simp [handleCommand, hm, hd, hset, hf, hdec]

/-- C7 (witness): on device AC200-100, topic
`bluetti/command/AC200-100/ac_output_on` with payload `ON` publishes a
boolean-true setter command and payload `OFF` publishes boolean-false. -/
theorem c7_witness :
    handleCommand [devEx] "bluetti/command/AC200-100/ac_output_on" "ON" =
      .published devEx (.setter "ac_output_on" (.bool true)) ∧
    handleCommand [devEx] "bluetti/command/AC200-100/ac_output_on" "OFF" =
      .published devEx (.setter "ac_output_on" (.bool false)) := by
  constructor
  · exact (c7_bool_button [devEx] _ "ON" "AC200" "100" "ac_output_on" devEx
      { type := .BOOL, setter := true, advanced := false }
      (by decide) (by decide) (by decide) (by decide) (Or.inl rfl)).trans (by decide)
  · exact (c7_bool_button [devEx] _ "OFF" "AC200" "100" "ac_output_on" devEx
      { type := .BOOL, setter := true, advanced := false }
      (by decide) (by decide) (by decide) (by decide) (Or.inl rfl)).trans (by decide)

/-- C4 (counterexample): the claim as stated is false about error handling.
On the Numeric field `battery_range_start`, the non-numeric payload `abc`
does not yield a logged-and-dropped `InvalidPayload`: `int()` raises an
uncaught `ValueError` that escapes the handler (no command is published,
but the request is not dropped with processing continuing — the exception
propagates). -/
theorem c4_counterexample :
    handleCommand [devEx] "bluetti/command/AC200-100/battery_range_start" "abc" =
      .raised .valueError := by decide

/-- C4 (amended): for a command on a Numeric-kind settable field with an
ASCII payload, a payload that `int()` accepts routes to a numeric setter
call with that integer value; a payload that `int()` rejects raises an
uncaught `ValueError` — nothing is published, and the request is not
converted into a logged-and-dropped error. -/
theorem c4_amended (devices : List Device) (topic payload : String)
    (t s f : String) (device : Device) (fc : MessageFieldConfig)
    (hm : topicMatch topic = some (t, s, f))
    (hd : devices.find? (fun d => d.type == t && d.sn == s) = some device)
    (hset : hasFieldSetter device f = true)
    (hf : lookupNormalField f = some fc)
    (hk : fc.type = .NUMERIC)
    (hAscii : pyDecodeAscii payload = some payload) :
    (∀ n : Int, pyInt payload = some n →
      handleCommand devices topic payload = .published device (.setter f (.num n))) ∧
    (pyInt payload = none →
      handleCommand devices topic payload = .raised .valueError) := by
  constructor
  · intro n hn
    have hdec : decodeSetterCommand f fc payload = .ok (.setter f (.num n)) := by
      simp [decodeSetterCommand, hk, hAscii, hn]
    simp [handleCommand, hm, hd, hset, hf, hdec]
  · intro hn
    have hdec : decodeSetterCommand f fc payload = .error .valueError := by
      simp [decodeSetterCommand, hk, hAscii, hn]
    simp [handleCommand, hm, hd, hset, hf, hdec]

/-- C4 (witness): payload `55` on `battery_range_start` publishes a numeric
setter call with value 55; payload `7x` raises `ValueError`. -/
theorem c4_witness :
    handleCommand [devEx] "bluetti/command/AC200-100/battery_range_start" "55" =
      .published devEx (.setter "battery_range_start" (.num 55)) ∧
    handleCommand [devEx] "bluetti/command/AC200-100/battery_range_start" "7x" =
      .raised .valueError := by
  constructor
  · exact (c4_amended [devEx] _ "55" "AC200" "100" "battery_range_start" devEx
      { type := .NUMERIC, setter := true, advanced := false }
      (by decide) (by decide) (by decide) (by decide) rfl (by decide)).1 55 (by decide)
  · exact (c4_amended [devEx] _ "7x" "AC200" "100" "battery_range_start" devEx
      { type := .NUMERIC, setter := true, advanced := false }
      (by decide) (by decide) (by decide) (by decide) rfl (by decide)).2 (by decide)

/-- C8 (confirmed): the `raise AssertionError` branch of the payload-decode
chain is unreachable: every field descriptor's kind is one of the four known
kinds (the enum is closed), and for each of them the chain produces either a
command or a different exception, so command handling never ends in the
assertion failure. -/
theorem c8_no_assertion_failure (devices : List Device) (topic payload : String) :
    handleCommand devices topic payload ≠ .raised .assertionError := by
  have hdec : ∀ (f : String) (fc : MessageFieldConfig),
      decodeSetterCommand f fc payload ≠ .error .assertionError := by
    intro f fc
    rcases hft : fc.type with _ | _ | _ | _
    · rcases hpd : pyDecodeAscii payload with _ | v
      · simp [decodeSetterCommand, hft, hpd]
      · rcases hpi : pyInt v with _ | n <;> simp [decodeSetterCommand, hft, hpd, hpi]
    · simp [decodeSetterCommand, hft]
    · rcases hpd : pyDecodeAscii payload with _ | v <;>
        simp [decodeSetterCommand, hft, hpd]
    · simp [decodeSetterCommand, hft]
  rcases hm : topicMatch topic with _ | ⟨t, s, f⟩
  · simp [handleCommand, hm]
  · rcases hd : devices.find? (fun d => d.type == t && d.sn == s) with _ | device
    · simp [handleCommand, hm, hd]
    · rcases hset : hasFieldSetter device f with _ | _
      · simp [handleCommand, hm, hd, hset]
      · rcases hf : lookupNormalField f with _ | fc
        · simp [handleCommand, hm, hd, hset, hf]
        · rcases hdc : decodeSetterCommand f fc payload with e | cmd
          · simp only [handleCommand, hm, hd, hset, hf, hdc, Bool.not_true,
              Bool.false_eq_true, if_false, ne_eq, CommandOutcome.raised.injEq]
            intro he
            rw [he] at hdc
            exact hdec f fc hdc
          · simp [handleCommand, hm, hd, hset, hf, hdc]

/-- Stripping a literal succeeds exactly on lists that start with it. -/
theorem stripLit_sound : ∀ (ps cs r : List Char), stripLit ps cs = some r → cs = ps ++ r := by
  intro ps
  induction ps with
  | nil =>
    intro cs r h
    simp only [stripLit, Option.some.injEq] at h
    simp [h]
  | cons p ps ih =>
    intro cs r h
    cases cs with
    | nil => simp [stripLit] at h
    | cons c cs =>
      by_cases hc : c = p
      · subst hc
        simp only [stripLit, if_pos rfl] at h
        rw [List.cons_append, ih cs r h]
      · simp only [stripLit, if_neg hc] at h
        exact Option.noConfusion h

/-- Character-list shape of the topic grammar string. -/
theorem topicDecomp_data (t s f : String) :
    ("bluetti/command/" ++ t ++ "-" ++ s ++ "/" ++ f).data =
      "bluetti/command/".data ++ (t.data ++ '-' :: (s.data ++ '/' :: f.data)) := by
  have hd : ("-" : String).data = ['-'] := rfl
  have hsl : ("/" : String).data = ['/'] := rfl
  simp [String.data_append, hd, hsl, List.append_assoc]

/-- Character-list shape of the topic grammar string with a trailing
newline. -/
theorem topicDecompNl_data (t s f : String) :
    ("bluetti/command/" ++ t ++ "-" ++ s ++ "/" ++ f ++ "\n").data =
      ("bluetti/command/".data ++ (t.data ++ '-' :: (s.data ++ '/' :: f.data))) ++
        ['\n'] := by
  have hd : ("-" : String).data = ['-'] := rfl
  have hsl : ("/" : String).data = ['/'] := rfl
  have hnl : ("\n" : String).data = ['\n'] := rfl
  simp [String.data_append, hd, hsl, hnl, List.append_assoc]

/-- Soundness of the core matcher: a successful match decomposes the input
into the grammar's pieces, with each capture nonempty and inside its
character class. -/
theorem topicCapture_sound : ∀ (cs : List Char) (t s f : String),
    topicCapture cs = some (t, s, f) →
    cs = "bluetti/command/".data ++ (t.data ++ '-' :: (s.data ++ '/' :: f.data)) ∧
    t ≠ "" ∧ t.data.all isWordChar = true ∧
    s ≠ "" ∧ s.data.all Char.isDigit = true ∧
    f ≠ "" ∧ f.data.all isFieldChar = true := by
  intro cs t s f h
  unfold topicCapture at h
  rcases hst : stripLit "bluetti/command/".data cs with _ | rest <;> rw [hst] at h
  · cases h
  · have hcs := stripLit_sound _ cs rest hst
    simp only at h
    split at h
    · cases h
    · rename_i hte
      split at h
      · rename_i r2 hdw
        split at h
        · cases h
        · rename_i hse
          split at h
          · rename_i r4 hdd
            split at h
            · cases h
            · split at h
              · rename_i hr4ne hr4all
                simp only [Option.some.injEq, Prod.mk.injEq] at h
                obtain ⟨ht, hsf, hff⟩ := h
                have htd : t.data = rest.takeWhile isWordChar := by rw [← ht]
                have hsd : s.data = r2.takeWhile Char.isDigit := by rw [← hsf]
                have hfd : f.data = r4 := by rw [← hff]
                have hrest2 : rest.takeWhile isWordChar ++ rest.dropWhile isWordChar =
                    rest := List.takeWhile_append_dropWhile _ _
                have hr2full : r2.takeWhile Char.isDigit ++ r2.dropWhile Char.isDigit =
                    r2 := List.takeWhile_append_dropWhile _ _
                have hrestEq : rest = rest.takeWhile isWordChar ++
                    ('-' :: (r2.takeWhile Char.isDigit ++ '/' :: r4)) := by
                  have e1 : rest = rest.takeWhile isWordChar ++ ('-' :: r2) :=
                    hrest2.symm.trans
                      (congrArg (fun l => rest.takeWhile isWordChar ++ l) hdw)
                  have e2 : r2 = r2.takeWhile Char.isDigit ++ '/' :: r4 :=
                    hr2full.symm.trans
                      (congrArg (fun l => r2.takeWhile Char.isDigit ++ l) hdd)
                  exact e1.trans
                    (congrArg (fun l => rest.takeWhile isWordChar ++ ('-' :: l)) e2)
                refine ⟨?_, ?_, ?_, ?_, ?_, ?_, ?_⟩
                · rw [hcs, htd, hsd, hfd]
                  exact congrArg (fun l => "bluetti/command/".data ++ l) hrestEq
                · intro he
                  rw [he] at htd
                  rw [← htd] at hte
                  simp at hte
                · rw [htd]
                  exact List.all_eq_true.mpr (fun x hx => List.mem_takeWhile_imp hx)
                · intro he
                  rw [he] at hsd
                  rw [← hsd] at hse
                  simp at hse
                · rw [hsd]
                  exact List.all_eq_true.mpr (fun x hx => List.mem_takeWhile_imp hx)
                · intro he
                  rw [he] at hfd
                  rw [← hfd] at hr4ne
                  simp at hr4ne
                · rw [hfd]
                  exact hr4all
              · cases h
          · cases h
      · cases h

/-- C5 (amended): any command whose topic is *not* rejected as malformed
matches the grammar `bluetti/command/<type>-<serial>/<field>` — possibly
followed by one trailing newline, which Python's `$` anchor also accepts
(the deviation forced by the counterexample); contrapositively, every topic
matching neither form is logged and dropped as a malformed topic, with
nothing published. -/
theorem c5_amended (devices : List Device) (topic payload : String)
    (h : handleCommand devices topic payload ≠ .droppedMalformedTopic) :
    ∃ t s f : String, isTopicDecomp topic t s f ∨ isTopicDecompNl topic t s f := by
  rcases hm : topicMatch topic with _ | ⟨t, s, f⟩
  · exact absurd (by simp [handleCommand, hm]) h
  · refine ⟨t, s, f, ?_⟩
    unfold topicMatch at hm
    rcases hc : topicCapture topic.data with _ | r <;> rw [hc] at hm
    · rcases hl : topic.data.getLast? with _ | c <;> rw [hl] at hm
      · cases hm
      · dsimp only at hm
        by_cases hnl : c = '\n'
        · rw [if_pos hnl] at hm
          subst hnl
          obtain ⟨hdata, h1, h2, h3, h4, h5, h6⟩ :=
            topicCapture_sound topic.data.dropLast t s f hm
          right
          have hne : topic.data ≠ [] := by
            intro hnil
            rw [hnil] at hl
            cases hl
          have hlast : topic.data.getLast hne = '\n' := by
            have hgl := List.getLast?_eq_getLast topic.data hne
            rw [hl] at hgl
            exact (Option.some.injEq _ _ ▸ hgl).symm
          have htop : topic.data = topic.data.dropLast ++ ['\n'] := by
            conv_lhs => rw [← List.dropLast_append_getLast hne]
            rw [hlast]
          refine ⟨?_, h1, h2, h3, h4, h5, h6⟩
          apply String.ext
          rw [topicDecompNl_data, ← hdata, ← htop]
        · rw [if_neg hnl] at hm
          cases hm
    · have hr : r = (t, s, f) := by
        simpa using hm
      subst hr
      obtain ⟨hdata, h1, h2, h3, h4, h5, h6⟩ :=
        topicCapture_sound topic.data t s f hc
      left
      refine ⟨?_, h1, h2, h3, h4, h5, h6⟩
      apply String.ext
      rw [topicDecomp_data, ← hdata]

/-- C5 (witness): the amended theorem applied to a well-formed concrete
topic: handling `bluetti/command/AC200-100/ac_output_on` does not drop the
request as malformed, so the topic decomposes per the grammar. -/
theorem c5_witness :
    handleCommand [devEx] "bluetti/command/AC200-100/ac_output_on" "ON" ≠
      .droppedMalformedTopic ∧
    ∃ t s f : String,
      isTopicDecomp "bluetti/command/AC200-100/ac_output_on" t s f ∨
      isTopicDecompNl "bluetti/command/AC200-100/ac_output_on" t s f :=
  ⟨by decide, c5_amended [devEx] "bluetti/command/AC200-100/ac_output_on" "ON"
    (by decide)⟩

/-- C5 (counterexample): the claim as stated is false.  The topic
`bluetti/command/AC200-100/ac_output_on` followed by one newline character
does not match the grammar `bluetti/command/<type>-<serial>/<field>` (no
segment may contain a newline), yet routing does not yield a malformed-topic
drop: Python's `$` matches before the trailing newline, so the request is
decoded and a command is published. -/
theorem c5_counterexample :
    (∀ t s f : String,
      ¬ isTopicDecomp "bluetti/command/AC200-100/ac_output_on\n" t s f) ∧
    handleCommand [devEx] "bluetti/command/AC200-100/ac_output_on\n" "ON" =
      .published devEx (.setter "ac_output_on" (.bool true)) := by
  constructor
  · rintro t s f ⟨heq, h1, h2, h3, h4, h5, h6⟩
    have hmem : '\n' ∈ ("bluetti/command/AC200-100/ac_output_on\n" : String).data := by
      decide
    rw [heq, topicDecomp_data] at hmem
    simp only [List.mem_append, List.mem_cons] at hmem
    rcases hmem with hpre | htm | hdash | hsm | hslash | hfm
    · exact absurd hpre (by decide)
    · exact absurd (List.all_eq_true.mp h2 _ htm) (by decide)
    · exact absurd hdash (by decide)
    · exact absurd (List.all_eq_true.mp h4 _ hsm) (by decide)
    · exact absurd hslash (by decide)
    · exact absurd (List.all_eq_true.mp h6 _ hfm) (by decide)
  · decide

/-- The element-wise `repr` list is a `map`. -/
theorem pyReprList_eq_map : ∀ vs : List PyValue, pyReprList vs = vs.map pyRepr := by
  intro vs
  induction vs with
  | nil => rfl
  | cons v vs ih => simp [pyReprList, ih]

/-- C9 (confirmed): in every built insert row, the `cell_voltages` array is
serialized as the bracketed, comma-separated list of its elements' string
representations (each element quoted, as Python's list `repr` does); a
boolean value is passed through as a native boolean parameter; and every
other value is passed as its string representation. -/
theorem c9_serialization :
    (∀ vs : List PyValue,
      loopBody "cell_voltages" (.list vs) =
        .ok (.str ("[" ++ sepJoin ", "
          (vs.map (fun v => String.mk (Char.ofNat 39 :: (pyStr v).data) ++
            String.mk [Char.ofNat 39])) ++ "]")))
    ∧ (∀ (name : String) (b : Bool), name ≠ "cell_voltages" →
        loopBody name (.bool b) = .ok (.bool b))
    ∧ (∀ (name : String) (v : PyValue), name ≠ "cell_voltages" →
        (∀ b : Bool, v ≠ .bool b) →
        loopBody name v = .ok (.str (pyStr v))) := by
  refine ⟨?_, ?_, ?_⟩
  · intro vs
    simp [loopBody, pyIterElems, pyStr, pyRepr, pyReprList_eq_map, List.map_map,
      Function.comp_def]
  · intro name b hn
    simp [loopBody, hn]
  · intro name v hn hb
    cases v with
    | bool b => exact absurd rfl (hb b)
    | int n => simp [loopBody, hn, pyStr]
    | str s => simp [loopBody, hn, pyStr]
    | list vs => simp [loopBody, hn, pyStr]

/-- C9 (witness): the serialization theorem applied to a one-element voltage
array, a boolean field, and a numeric field. -/
theorem c9_witness :
    loopBody "cell_voltages" (.list [.int 3]) =
      .ok (.str ("[" ++ sepJoin ", "
        ([PyValue.int 3].map (fun v => String.mk (Char.ofNat 39 :: (pyStr v).data) ++
          String.mk [Char.ofNat 39])) ++ "]")) ∧
    loopBody "grid_charge_on" (.bool true) = .ok (.bool true) ∧
    loopBody "dc_input_power" (.int 5) = .ok (.str (pyStr (.int 5))) :=
  ⟨c9_serialization.1 [.int 3],
   c9_serialization.2.1 "grid_charge_on" true (by decide),
   c9_serialization.2.2 "dc_input_power" (.int 5) (by decide)
     (fun _ h => PyValue.noConfusion h)⟩

/-- A pattern starting with `%` never occurs in a `%`-free list. -/
theorem countSub_eq_zero (q : List Char) : ∀ l : List Char, '%' ∉ l →
    countSub ('%' :: q) l = 0 := by
  intro l
  induction l with
  | nil => intro _; rfl
  | cons c cs ih =>
    intro h
    have hc : ('%' == c) = false := by
      rw [beq_eq_false_iff_ne]
      intro he
      exact h (by rw [he]; exact List.mem_cons_self _ _)
    have h2 : '%' ∉ cs := fun hm => h (List.mem_cons_of_mem _ hm)
    simp [countSub, List.isPrefixOf, hc, ih h2]

/-- Occurrences of a `%`-headed pattern after a `%`-free left part are
exactly the occurrences in the right part. -/
theorem countSub_append_left (q : List Char) : ∀ a b : List Char, '%' ∉ a →
    countSub ('%' :: q) (a ++ b) = countSub ('%' :: q) b := by
  intro a
  induction a with
  | nil => intro b _; rfl
  | cons c cs ih =>
    intro b h
    have hc : ('%' == c) = false := by
      rw [beq_eq_false_iff_ne]
      intro he
      exact h (by rw [he]; exact List.mem_cons_self _ _)
    have h2 : '%' ∉ cs := fun hm => h (List.mem_cons_of_mem _ hm)
    simp [countSub, List.isPrefixOf, hc, ih b h2]

/-- The placeholder block of `n + 1` parameters contains exactly `n + 1`
occurrences of `%s`, also when followed by a `%`-free tail. -/
theorem countSub_phBlock (n : Nat) : ∀ t : List Char, '%' ∉ t →
    countSub ['%', 's'] (phBlock (n + 1) ++ t) = n + 1 := by
  induction n with
  | zero =>
    intro t h
    show countSub ['%', 's'] ('%' :: 's' :: t) = 1
    have hp : (['%', 's'].isPrefixOf ('%' :: 's' :: t)) = true := by
      simp [List.isPrefixOf]
    have hb1 : ('%' == 's') = false := by decide
    simp [countSub, List.isPrefixOf, hp, hb1, countSub_eq_zero _ t h]
  | succ n ih =>
    intro t h
    show countSub ['%', 's']
        ('%' :: 's' :: ',' :: ' ' :: (phBlock (n + 1) ++ t)) = n + 2
    have hp0 : (['%', 's'].isPrefixOf
        ('%' :: 's' :: ',' :: ' ' :: (phBlock (n + 1) ++ t))) = true := by
      simp [List.isPrefixOf]
    have hb1 : ('%' == 's') = false := by decide
    have hb2 : ('%' == ',') = false := by decide
    have hb3 : ('%' == ' ') = false := by decide
    simp only [countSub, hp0, if_true, List.isPrefixOf, hb1, hb2, hb3,
      Bool.false_and, if_false]
    rw [ih t h]
    simp
    omega

/-- Character shape of the repeated placeholder string `"%s, " * (n+1)`. -/
theorem pyRepeat_data (n : Nat) :
    (pyRepeat "%s, " (n + 1)).data = phBlock (n + 1) ++ [',', ' '] := by
  induction n with
  | zero => rfl
  | succ n ih =>
    show ("%s, " ++ pyRepeat "%s, " (n + 1)).data = phBlock (n + 2) ++ [',', ' ']
    rw [String.data_append, ih]
    rw [show (phBlock (n + 2) : List Char) =
      ['%', 's', ',', ' '] ++ phBlock (n + 1) from rfl]
    rw [List.append_assoc]

/-- The `[:-2]` slice of the repeated placeholder string is the bare
placeholder block. -/
theorem pyDropLast2_pyRepeat (n : Nat) :
    (pyDropLast2 (pyRepeat "%s, " n)).data = phBlock n := by
  cases n with
  | zero => rfl
  | succ n =>
    show (pyRepeat "%s, " (n + 1)).data.dropLast.dropLast = phBlock (n + 1)
    rw [pyRepeat_data]
    rw [show (phBlock (n + 1) ++ [',', ' '] : List Char) =
      (phBlock (n + 1) ++ [',']) ++ [' '] from by simp]
    rw [List.dropLast_concat, List.dropLast_concat]

/-- The accumulated `valueOrder` string contains no `%` when none of the
field names does. -/
theorem pct_not_in_concat (names : List String)
    (hn : ∀ x ∈ names, '%' ∉ x.data) :
    '%' ∉ (pyConcat (names.map (fun x => x ++ ", "))).data := by
  induction names with
  | nil => simp [pyConcat]
  | cons x xs ih =>
    have hsep : ((", " : String)).data = [',', ' '] := rfl
    simp only [List.map_cons, pyConcat, String.data_append, hsep]
    intro hm
    rcases List.mem_append.mp hm with hm | hm
    · rcases List.mem_append.mp hm with hm | hm
      · exact hn x (List.mem_cons_self _ _) hm
      · rcases List.mem_cons.mp hm with he | hm2
        · exact absurd he (by decide)
        · rcases List.mem_cons.mp hm2 with he | hm3
          · exact absurd he (by decide)
          · cases hm3
    · exact ih (fun y hy => hn y (List.mem_cons_of_mem _ hy)) hm

/-- Textual placeholder count of a built query: with a `%`-free table name
and `valueOrder`, the query for `n + 1` parameters contains exactly `n + 1`
occurrences of `%s`. -/
theorem countSub_buildQuery (tname vo : String) (n : Nat)
    (ht : '%' ∉ tname.data) (hv : '%' ∉ vo.data) :
    countSub ['%', 's'] (buildQuery tname vo (n + 1)).data = n + 1 := by
  have hvd : '%' ∉ (pyDropLast2 vo).data := by
    intro hm
    exact hv ((List.dropLast_sublist _).subset ((List.dropLast_sublist _).subset hm))
  have hq : (buildQuery tname vo (n + 1)).data =
      "INSERT INTO ".data ++ (tname.data ++ (" (device, ".data ++
        ((pyDropLast2 vo).data ++ (") VALUES (".data ++
          (phBlock (n + 1) ++ [')']))))) := by
    have hpar : ((")" : String)).data = [')'] := rfl
    simp [buildQuery, String.data_append, pyDropLast2_pyRepeat, hpar,
      List.append_assoc]
  rw [hq]
  rw [countSub_append_left _ _ _ (by decide)]
  rw [countSub_append_left _ _ _ ht]
  rw [countSub_append_left _ _ _ (by decide)]
  rw [countSub_append_left _ _ _ hvd]
  rw [countSub_append_left _ _ _ (by decide)]
  exact countSub_phBlock n [')'] (by decide)

/-- C10 (confirmed): every insert statement the writer builds is
shape-consistent.  For every event and every `DATABASE_TABLES` entry that
yields an insert, the column list rendered into the query is `device`
followed by field names drawn from that table, the parameter list is one
longer than those field names (the device value), and the number of `%s`
placeholders in the query text equals the length of the parameter list. -/
theorem c10_query_shape (dN : String) (p : List (String × PyValue))
    (nk : String) (tc : DBTableConfig) (i : InsertStmt)
    (hmem : (nk, tc) ∈ databaseTables)
    (hpt : processTable dN tc p = .ok (some i)) :
    ∃ names : List String,
      (∀ x ∈ names, x ∈ tc.fields) ∧
      i.query = buildQuery tc.table_name
        (pyConcat (names.map (fun x => x ++ ", "))) i.values.length ∧
      i.values.length = names.length + 1 ∧
      countSub ['%', 's'] i.query.data = i.values.length := by
  have hkey : (∀ y ∈ tc.fields, '%' ∉ y.data) ∧ '%' ∉ tc.table_name.data := by
    simp only [databaseTables, List.mem_cons, List.not_mem_nil, or_false,
      Prod.mk.injEq] at hmem
    rcases hmem with ⟨_, h2⟩ | ⟨_, h2⟩ | ⟨_, h2⟩ | ⟨_, h2⟩ <;> subst h2 <;>
      exact ⟨by decide, by decide⟩
  unfold processTable at hpt
  rcases hrl : rowLoop tc.fields p with e | o <;> rw [hrl] at hpt
  · cases hpt
  · cases o with
    | none => cases hpt
    | some x =>
      obtain ⟨vo, ps⟩ := x
      simp only [Except.ok.injEq, Option.some.injEq] at hpt
      obtain ⟨names, hvo, hlen, hmemf⟩ := rowLoop_some_spec tc.fields p vo ps hrl
      subst hpt
      refine ⟨names, hmemf, ?_, ?_, ?_⟩
      · rw [hvo]
      · simp [← hlen]
      · have hn : (PyParam.str dN :: ps).length = ps.length + 1 := by simp
        rw [hn]
        apply countSub_buildQuery
        · exact hkey.2
        · rw [hvo]
          exact pct_not_in_concat names (fun x hx => hkey.1 x (hmemf x hx))

/-- C10 (witness): the theorem applied to the concrete insert built for
`general_data` from an event carrying only `dc_input_power`. -/
theorem c10_witness :
    ∃ names : List String,
      (∀ x ∈ names, x ∈ tcGeneral.fields) ∧
      ({ table := "general_data",
         query := "INSERT INTO general_data (device, dc_input_power) VALUES (%s, %s)",
         values := [PyParam.str "AC200-100", PyParam.str "100"] } : InsertStmt).query =
        buildQuery tcGeneral.table_name
          (pyConcat (names.map (fun x => x ++ ", ")))
          ({ table := "general_data",
             query := "INSERT INTO general_data (device, dc_input_power) VALUES (%s, %s)",
             values := [PyParam.str "AC200-100", PyParam.str "100"] } : InsertStmt).values.length ∧
      ({ table := "general_data",
         query := "INSERT INTO general_data (device, dc_input_power) VALUES (%s, %s)",
         values := [PyParam.str "AC200-100", PyParam.str "100"] } : InsertStmt).values.length =
        names.length + 1 ∧
      countSub ['%', 's']
        ({ table := "general_data",
           query := "INSERT INTO general_data (device, dc_input_power) VALUES (%s, %s)",
           values := [PyParam.str "AC200-100", PyParam.str "100"] } : InsertStmt).query.data =
        ({ table := "general_data",
           query := "INSERT INTO general_data (device, dc_input_power) VALUES (%s, %s)",
           values := [PyParam.str "AC200-100", PyParam.str "100"] } : InsertStmt).values.length :=
  c10_query_shape "AC200-100" [("dc_input_power", PyValue.int 100)]
    "general_data" tcGeneral _ (by decide) (by rfl)
